import Mathlib

/-!
Shallow embedding of the reconciliation core of `compare-sheets`
(`src/app/pages/sheets/state.py`): the value comparator `compare_values`
and the reconciliation engine `compare_files`, together with theorems
settling the specification claims about them.

Modelling conventions:
* A scalar cell value is the closed variant `Value` below.  The pandas
  missing marker (`NaN` / `None`, i.e. everything `pd.isna` accepts) is
  the single constructor `Value.null`; finite Python floats are modelled
  as rationals; Python `bool` is a separate constructor but — as in
  Python, where `bool` is a subclass of `int` — it passes the
  `isinstance(v, (float, int))` test.
* A dataframe is a column-name list plus a list of rows (each row a list
  of cell values, positionally aligned with the columns).
* Python string operations `.strip()` / `.lower()` are modelled
  character-wise on the underlying character list.
* `perf_counter` elapsed time is not modelled: `compare_files` takes the
  formatted elapsed-time string as an explicit parameter and stores it in
  the summary, which is exactly the extent to which the time influences
  the result.
* In-place mutation of the two input dataframes (the identifier-column
  normalisation) is modelled by returning the post-call dataframes
  alongside the result: `compare_files` returns
  `(result-or-error, df1-after, df2-after)`.
-/

/-- A Python scalar cell value as used by the comparator:
missing marker, boolean, integer, (finite) float, or text. -/
inductive Value where
  | null : Value
  | bool : Bool → Value
  | int : ℤ → Value
  | float : ℚ → Value
  | str : String → Value
deriving DecidableEq, Repr

/-- `pd.isna`: true exactly on the missing marker. -/
def Value.isna : Value → Bool
  | .null => true
  | _ => false

/-- Python `isinstance(v, (float, int))`.  `bool` is a subclass of `int`
in Python, so booleans count as numeric here. -/
def Value.isNumeric : Value → Bool
  | .bool _ => true
  | .int _ => true
  | .float _ => true
  | _ => false

/-- Python `isinstance(v, str)`. -/
def Value.isStr : Value → Bool
  | .str _ => true
  | _ => false

/-- Numeric interpretation of a value (`float(v)` succeeds on these). -/
def Value.toNum? : Value → Option ℚ
  | .bool b => some (if b then 1 else 0)
  | .int n => some (n : ℚ)
  | .float q => some q
  | _ => Option.none

/-- `float(v)` for a numeric value (junk `0` otherwise; only used behind
the `isNumeric` guard). -/
def Value.toFloat (v : Value) : ℚ := (v.toNum?).getD 0

/-- Python `==` between two scalar values: numeric kinds (bool/int/float)
compare by numeric value, otherwise values are equal only when of the
same kind with equal payload. -/
def pyEq (v1 v2 : Value) : Bool :=
  match v1.toNum?, v2.toNum? with
  | some a, some b => decide (a = b)
  | _, _ => decide (v1 = v2)

/-- Strip leading and trailing whitespace from a character list
(Python `str.strip()`). -/
def stripChars (l : List Char) : List Char :=
  ((l.dropWhile Char.isWhitespace).reverse.dropWhile Char.isWhitespace).reverse

/-- Python `str.strip()`. -/
def pyStrip (s : String) : String := ⟨stripChars s.data⟩

/-- Python `str.lower()` (character-wise). -/
def pyLower (s : String) : String := ⟨s.data.map Char.toLower⟩

/-- The number of hundredths in Python `round(q, 2)`: the integer nearest
`q * 100`, ties to even (Python `round`'s tie-breaking rule), computed on
the numerator and denominator with integer arithmetic.  `round(q, 2)`
itself is `roundHundredths q / 100` (see `round2`), so two values round
to the same 2-decimal float exactly when their `roundHundredths` agree. -/
def roundHundredths (q : ℚ) : ℤ :=
  let n := q.num * 100
  let d := (q.den : ℤ)
  let f := Int.fdiv n d
  let r := n - f * d
  if 2 * r < d then f
  else if d < 2 * r then f + 1
  else if f % 2 = 0 then f else f + 1

/-- Python `round(x, 2)`: round to 2 decimal places, ties to even.
(Floats are modelled as exact rationals, so the rounding acts on the
exact value.) -/
def round2 (q : ℚ) : ℚ := (roundHundredths q : ℚ) / 100

/-- `compare_values` (state.py:9-25): compare two scalar cell values.
Both missing → match; exactly one missing → no match; both numeric →
equality after rounding to 2 decimals (`round(float(v1), 2) ==
round(float(v2), 2)`, stated on the hundredths integers, which is the
same equality); both text → case-insensitive, whitespace-trimmed
equality; otherwise Python `==`. -/
def compare_values (val1 val2 : Value) : Bool :=
  if val1.isna && val2.isna then true
  else if val1.isna || val2.isna then false
  else if val1.isNumeric && val2.isNumeric then
    decide (roundHundredths val1.toFloat = roundHundredths val2.toFloat)
  else if val1.isStr && val2.isStr then
    match val1, val2 with
    | .str s1, .str s2 => decide (pyLower (pyStrip s1) = pyLower (pyStrip s2))
    | _, _ => false
  else pyEq val1 val2

example : compare_values (.float (mkRat 1004 1000)) (.int 1) = true := by decide
example : compare_values (.bool true) (.float (mkRat 1004 1000)) = true := by decide
example : compare_values (.str " A ") (.str "a") = true := by decide
example : compare_values (.str "1") (.int 1) = false := by decide
example : compare_values .null .null = true := by decide
example : compare_values .null (.int 0) = false := by decide

/-- Drop trailing `'0'` characters. -/
def stripTrailingZeros (l : List Char) : List Char :=
  (l.reverse.dropWhile (fun c => c == '0')).reverse

/-- Python `str(f)` for a float `f` modelled as the exact rational `q`.
Floats are dyadic rationals, so their exact decimal expansion terminates
(within 40 digits for the doubles that occur here); integral floats
render as `"<n>.0"` exactly as Python prints them. -/
def pyFloatStr (q : ℚ) : String :=
  if q.den = 1 then toString q.num ++ ".0"
  else
    let sign := if q.num < 0 then "-" else ""
    let a := q.num.natAbs
    let ipart := a / q.den
    let fracScaled := a * 10 ^ 40 / q.den % 10 ^ 40
    let digits := Nat.toDigits 10 fracScaled
    let padded := List.replicate (40 - digits.length) '0' ++ digits
    let frac := stripTrailingZeros padded
    sign ++ toString ipart ++ "." ++ (if frac.isEmpty then "0" else ⟨frac⟩)

/-- `str(v)` as applied cell-wise by pandas `astype(str)`; the missing
marker renders as `"nan"` (the string pandas produces for `NaN`). -/
def pyStr : Value → String
  | .null => "nan"
  | .bool b => if b then "True" else "False"
  | .int n => toString n
  | .float q => pyFloatStr q
  | .str s => s

example : pyStr (.int 1) = "1" := by decide
example : pyStr (.float 1) = "1.0" := by decide
example : pyStr (.float (mkRat 1 10)) = "0.1" := by decide

deriving instance DecidableEq for Except

/-- A pandas dataframe: named columns and a list of rows, each row a list
of cell values positionally aligned with `cols`. -/
structure DF where
  cols : List String
  rows : List (List Value)
deriving DecidableEq, Repr

/-- A dataframe is rectangular: every row has one cell per column. -/
def DF.WF (df : DF) : Prop := ∀ r ∈ df.rows, r.length = df.cols.length

/-- Position of a column label (first occurrence), pandas label lookup. -/
def colIdx (cols : List String) (c : String) : Option ℕ :=
  cols.findIdx? (fun c2 => c2 == c)

/-- The cell of row `r` under column `c` (missing marker when absent). -/
def rowCell (cols : List String) (c : String) (r : List Value) : Value :=
  match colIdx cols c with
  | some j => (r.get? j).getD .null
  | none => .null

/-- `df[c]` as a value list. -/
def DF.getCol (df : DF) (c : String) : List Value :=
  df.rows.map (rowCell df.cols c)

/-- One cell of the identifier normalisation:
`astype(str).str.strip()`. -/
def normCell (v : Value) : Value := .str (pyStrip (pyStr v))

/-- `df[c] = df[c].astype(str).str.strip()` (state.py:37-38): rewrite
column `c` of every row in place; reading a missing column raises
`KeyError` (modelled as the error case). -/
def normalizeIdCol (df : DF) (c : String) : Except String DF :=
  match colIdx df.cols c with
  | some j =>
    .ok { cols := df.cols,
          rows := df.rows.map (fun r => r.set j (normCell ((r.get? j).getD .null))) }
  | none => .error ("KeyError: " ++ c)

/-- `df.rename(columns={col: col + suffix})` (state.py:53-57). -/
def renameCols (df : DF) (suffix : String) : DF :=
  { cols := df.cols.map (fun c => c ++ suffix), rows := df.rows }

/-- `df[~df[c].isin(ids)]` (state.py:41,45): keep the rows whose value
under `c` is not among `ids`, in source order. -/
def filterNotIn (df : DF) (c : String) (ids : List Value) : DF :=
  { cols := df.cols,
    rows := df.rows.filter (fun r => !(decide (rowCell df.cols c r ∈ ids))) }

/-- `pd.merge(d1r, d2r, left_on=lk, right_on=rk, how="inner")`
(state.py:60-66): for each left row in order, every right row with an
equal key, in order; the joined row is left cells then right cells. -/
def mergeRows (d1r d2r : DF) (lk rk : String) : List (List Value) :=
  d1r.rows.flatMap (fun r1 =>
    (d2r.rows.filter (fun r2 =>
      decide (rowCell d2r.cols rk r2 = rowCell d1r.cols lk r1))).map
      (fun r2 => r1 ++ r2))

/-- The data recorded for one comparison pair (state.py:87-103): the two
raw value vectors and the per-row match vector. -/
structure PairData where
  name : String
  vals1 : List Value
  vals2 : List Value
  matchVec : List Bool
deriving DecidableEq, Repr

/-- The quote character Python `repr` chooses for a string: a single
quote, except when the string contains a single quote and no double
quote, in which case a double quote. -/
def reprQuote (m : String) : Char :=
  if m.data.contains '\'' && !(m.data.contains '"') then '"' else '\''

/-- Lower-case hexadecimal digit, as in Python `\xXX` escapes. -/
def hexDigitChar (n : ℕ) : Char :=
  if n < 10 then Char.ofNat (48 + n) else Char.ofNat (87 + n)

/-- How Python `repr` renders one character of a string quoted with `q`:
the quote character and the backslash are backslash-escaped, tab/newline/
carriage-return become `\t`/`\n`/`\r`, other ASCII control characters
(and DEL) become `\xXX`, and everything else passes through.  (Python
additionally `\u`-escapes non-ASCII unprintable characters; those are not
modelled and do not occur in the column names exercised here.) -/
def reprEscapeChar (q c : Char) : List Char :=
  if c = q ∨ c = '\\' then ['\\', c]
  else if c = '\t' then ['\\', 't']
  else if c = '\n' then ['\\', 'n']
  else if c = '\r' then ['\\', 'r']
  else if c.toNat < 32 ∨ c.toNat = 127 then
    ['\\', 'x', hexDigitChar (c.toNat / 16), hexDigitChar (c.toNat % 16)]
  else [c]

/-- `str(KeyError(m))`, which is Python `repr(m)`: the chosen quote,
the escaped characters, the closing quote. -/
def keyErrorStr (m : String) : String :=
  ⟨reprQuote m :: m.data.flatMap (reprEscapeChar (reprQuote m)) ++ [reprQuote m]⟩

/-- The form a column name takes inside `str(KeyError(m))` when it occurs
in the message `m`: each of its characters escaped for `m`'s quote. -/
def reprEscapedName (m c : String) : List Char :=
  c.data.flatMap (reprEscapeChar (reprQuote m))

example : keyErrorStr "Column 'x' not found in first file"
    = "\"Column 'x' not found in first file\"" := by decide
example : keyErrorStr "it's a \"q\"" = "'it\\'s a \"q\"'" := by decide

/-- The message of the inner `KeyError` (state.py:83,85). -/
def innerColMsg (col : String) (which : String) : String :=
  "Column '" ++ col ++ "' not found in " ++ which ++ " file"

/-- The message of the `Exception` re-raised at state.py:109-111:
`f"Column '{str(e)}' not found. Please check your column mapping."`. -/
def missingColMsg (col : String) (which : String) : String :=
  "Column '" ++ keyErrorStr (innerColMsg col which) ++
    "' not found. Please check your column mapping."

/-- The loop over `column_mapping.items()` (state.py:73-111): skip the
`"id"` entry; for each pair check that both (suffixed) columns exist in
the merged frame — the first missing one aborts the whole call with
`missingColMsg` — and otherwise record the value vectors and the
element-wise `compare_values` match vector. -/
def processPairs (merged : DF) : List (String × String × String) → Except String (List PairData)
  | [] => .ok []
  | (n, c1, c2) :: rest =>
    if n = "id" then processPairs merged rest
    else if (c1 ++ "_file1") ∈ merged.cols then
      if (c2 ++ "_file2") ∈ merged.cols then
        match processPairs merged rest with
        | .ok ps =>
          let v1 := merged.getCol (c1 ++ "_file1")
          let v2 := merged.getCol (c2 ++ "_file2")
          .ok ({ name := n, vals1 := v1, vals2 := v2,
                 matchVec := List.zipWith compare_values v1 v2 } :: ps)
        | .error e => .error e
      else .error (missingColMsg c2 "second")
    else .error (missingColMsg c1 "first")

/-- `all_matches = np.ones(n); all_matches &= matches` per pair
(state.py:70,95). -/
def andFold (n : ℕ) (ps : List PairData) : List Bool :=
  ps.foldl (fun acc p => List.zipWith and acc p.matchVec) (List.replicate n true)

/-- Column labels of the comparison dataframe, in dict insertion order
(state.py:69,97-103,113). -/
def comparisonCols (ps : List PairData) : List String :=
  "id" :: (ps.flatMap (fun p =>
    [p.name ++ "_file1", p.name ++ "_file2", p.name ++ "_matches"]) ++
      ["all_columns_match"])

/-- Rows of the (unsorted) comparison dataframe: per joined row, the id
value, then per pair the two values and the match flag, then the overall
flag. -/
def comparisonRows (idVals : List Value) (ps : List PairData) (allm : List Bool) :
    List (List Value) :=
  (List.range idVals.length).map (fun i =>
    (idVals.getD i .null) ::
      (ps.flatMap (fun p =>
        [p.vals1.getD i .null, p.vals2.getD i .null, .bool (p.matchVec.getD i true)]) ++
          [.bool (allm.getD i true)]))

/-- `sort_values("all_columns_match", ascending=False)` (state.py:114-116):
rows whose flag is `true` first, then the rest, each group in source
order (the stable reading of the sort). -/
def sortByFlag (rows : List (List Value)) (flags : List Bool) : List (List Value) :=
  ((rows.zip flags).filter (fun rf => rf.2)).map Prod.fst ++
    ((rows.zip flags).filter (fun rf => !rf.2)).map Prod.fst

/-- The summary dict (state.py:119-128); `timeTaken` holds the formatted
elapsed-time string. -/
structure Summary where
  totalRows1 : ℕ
  totalRows2 : ℕ
  onlyInFile1 : ℕ
  onlyInFile2 : ℕ
  commonRecords : ℕ
  matchingRecords : ℕ
  mismatchedRecords : ℕ
  timeTaken : String
deriving DecidableEq, Repr

/-- The `column_mapping` dict: the `"id"` entry plus the remaining
(name, col1, col2) comparison pairs in dict insertion order. -/
structure ColumnMapping where
  idPair : String × String
  pairs : List (String × String × String)
deriving DecidableEq, Repr

/-- The result dict returned at state.py:130-135. -/
structure CompareOutput where
  comparison_df : DF
  summary : Summary
  not_in_file1 : DF
  not_in_file2 : DF
deriving DecidableEq, Repr

/-- The merged frame of state.py:60-66: both frames with side-suffixed
column names, inner-joined on the suffixed identifier columns. -/
def mergedDF (d1 d2 : DF) (m : ColumnMapping) : DF :=
  { cols := (renameCols d1 "_file1").cols ++ (renameCols d2 "_file2").cols,
    rows := mergeRows (renameCols d1 "_file1") (renameCols d2 "_file2")
      (m.idPair.1 ++ "_file1") (m.idPair.2 ++ "_file2") }

/-- The successful result (state.py:113-135) assembled from the
already-normalised frames and the processed comparison pairs. -/
def mkOutput (d1 d2 : DF) (m : ColumnMapping) (elapsed : String)
    (ps : List PairData) : CompareOutput :=
  let merged := mergedDF d1 d2 m
  let n := merged.rows.length
  let allm := andFold n ps
  let idVals := merged.getCol (m.idPair.1 ++ "_file1")
  let not_in_df1 := filterNotIn d2 m.idPair.2 (d1.getCol m.idPair.1)
  let not_in_df2 := filterNotIn d1 m.idPair.1 (d2.getCol m.idPair.2)
  { comparison_df :=
      { cols := comparisonCols ps,
        rows := sortByFlag (comparisonRows idVals ps allm) allm },
    summary := {
      totalRows1 := d1.rows.length,
      totalRows2 := d2.rows.length,
      onlyInFile1 := not_in_df2.rows.length,
      onlyInFile2 := not_in_df1.rows.length,
      commonRecords := n,
      matchingRecords := allm.count true,
      mismatchedRecords := n - allm.count true,
      timeTaken := elapsed },
    not_in_file1 := not_in_df1,
    not_in_file2 := not_in_df2 }

/-- Everything `compare_files` does after the two identifier columns have
been normalised (state.py:40-135), on the already-normalised frames. -/
def buildOutput (d1 d2 : DF) (m : ColumnMapping) (elapsed : String) :
    Except String CompareOutput :=
  match processPairs (mergedDF d1 d2 m) m.pairs with
  | .error e => .error e
  | .ok ps => .ok (mkOutput d1 d2 m elapsed ps)

/-- `compare_files` (state.py:28-135).  In-place mutation of the two
caller-owned dataframes is made explicit: the call returns the
result-or-error together with the dataframes as they are after the call
(identifier columns normalised once normalisation has happened). -/
def compare_files (df1 df2 : DF) (m : ColumnMapping) (elapsed : String) :
    Except String CompareOutput × DF × DF :=
  match normalizeIdCol df1 m.idPair.1 with
  | .error e => (.error e, df1, df2)
  | .ok d1 =>
    match normalizeIdCol df2 m.idPair.2 with
    | .error e => (.error e, d1, df2)
    | .ok d2 => (buildOutput d1 d2 m elapsed, d1, d2)

/- Sanity check: the end-to-end scenario of spec §8 evaluates as the spec
predicts (one common record, matching; one record only on each side). -/
example :
    ((compare_files
      ⟨["id", "name", "amt"],
        [[.str "1", .str "Alice", .float (mkRat 10004 1000)],
         [.str "2", .str "Bob", .float 5]]⟩
      ⟨["id", "name", "amt"],
        [[.str "1 ", .str "alice", .float 10],
         [.str "3", .str "Carl", .float 1]]⟩
      ⟨("id", "id"), [("name", "name", "name"), ("amt", "amt", "amt")]⟩
      "0.00 seconds").1.map
        (fun o => (o.summary.commonRecords, o.summary.matchingRecords,
                   o.summary.mismatchedRecords, o.summary.onlyInFile1,
                   o.summary.onlyInFile2))) = .ok (1, 1, 0, 1, 1) := by decide

/-! ### Helper lemmas about stripping and normalisation -/

theorem dropWhile_idem {α : Type} (p : α → Bool) (l : List α) :
    (l.dropWhile p).dropWhile p = l.dropWhile p := by
  induction l with
  | nil => rfl
  | cons a l ih =>
    by_cases h : p a = true
    · simp [List.dropWhile_cons, h, ih]
    · simp [List.dropWhile_cons, h]

theorem dropWhile_head_false {α : Type} (p : α → Bool) (l : List α) (b : α)
    (t : List α) (h : l.dropWhile p = b :: t) : p b = false := by
  induction l with
  | nil => simp at h
  | cons a l ih =>
    by_cases ha : p a = true
    · rw [List.dropWhile_cons, if_pos ha] at h
      exact ih h
    · rw [List.dropWhile_cons, if_neg ha] at h
      injection h with h1 h2
      subst h1
      simpa using ha

theorem dropWhile_reverse_dropWhile {α : Type} (p : α → Bool) (l : List α) :
    ((l.dropWhile p).reverse.dropWhile p).reverse.dropWhile p
      = ((l.dropWhile p).reverse.dropWhile p).reverse := by
  set A := l.dropWhile p with hA
  set B := A.reverse.dropWhile p with hB
  match hBr : B.reverse with
  | [] => simp
  | c :: D =>
    have hsuf : B <:+ A.reverse := hB ▸ List.dropWhile_suffix p
    have hpre : B.reverse <+: A := by
      have h2 := List.reverse_prefix.mpr hsuf
      simpa using h2
    obtain ⟨rest, hrest⟩ := hpre
    rw [hBr] at hrest
    have hAc : l.dropWhile p = c :: (D ++ rest) := by
      rw [← hA, ← hrest, List.cons_append]
    have hc : p c = false := dropWhile_head_false p l c (D ++ rest) hAc
    rw [List.dropWhile_cons, if_neg (by simp [hc])]

theorem stripChars_idem (l : List Char) :
    stripChars (stripChars l) = stripChars l := by
  have h1 := dropWhile_reverse_dropWhile Char.isWhitespace l
  calc stripChars (stripChars l)
      = (((stripChars l).dropWhile Char.isWhitespace).reverse.dropWhile
          Char.isWhitespace).reverse := rfl
    _ = ((stripChars l).reverse.dropWhile Char.isWhitespace).reverse := by
          rw [stripChars, h1]
    _ = (((l.dropWhile Char.isWhitespace).reverse.dropWhile
          Char.isWhitespace).dropWhile Char.isWhitespace).reverse := by
          rw [stripChars, List.reverse_reverse]
    _ = ((l.dropWhile Char.isWhitespace).reverse.dropWhile
          Char.isWhitespace).reverse := by rw [dropWhile_idem]
    _ = stripChars l := rfl

theorem pyStrip_idem (s : String) : pyStrip (pyStrip s) = pyStrip s :=
  congrArg String.mk (stripChars_idem s.data)

theorem normCell_idem (v : Value) : normCell (normCell v) = normCell v :=
  congrArg Value.str (pyStrip_idem _)

/-! ### C7: null handling of the comparator -/

/-- C7: `compare_values` returns `true` when both arguments are the
null/missing marker, and `false` whenever exactly one argument is the
marker, for every non-null other value. -/
theorem compare_values_null_rule (v : Value) (h : v ≠ .null) :
    compare_values .null .null = true ∧
    compare_values .null v = false ∧ compare_values v .null = false := by
  refine ⟨rfl, ?_, ?_⟩ <;> cases v <;> first | rfl | exact absurd rfl h

theorem compare_values_null_rule_witness :
    compare_values .null .null = true ∧
    compare_values .null (.int 7) = false ∧ compare_values (.int 7) .null = false :=
  compare_values_null_rule (.int 7) (by decide)

/-! ### C6: numeric comparison is 2-decimal rounding -/

theorem round2_eq_iff (a b : ℚ) :
    round2 a = round2 b ↔ roundHundredths a = roundHundredths b := by
  unfold round2
  constructor
  · intro h
    have h2 : ((roundHundredths a : ℚ)) * 100 = (roundHundredths b : ℚ) * 100 :=
      (div_eq_div_iff (by norm_num) (by norm_num)).mp h
    exact_mod_cast mul_right_cancel₀ (by norm_num) h2
  · intro h
    rw [h]

/-- C6: for numeric values (integer or floating-point), `compare_values`
is `true` iff rounding each to 2 decimal places (after conversion to
floating-point) yields exactly equal results. -/
theorem compare_values_numeric_round (v1 v2 : Value)
    (h1 : (∃ n, v1 = Value.int n) ∨ (∃ q, v1 = Value.float q))
    (h2 : (∃ n, v2 = Value.int n) ∨ (∃ q, v2 = Value.float q)) :
    (compare_values v1 v2 = true ↔ round2 v1.toFloat = round2 v2.toFloat) := by
  rcases h1 with ⟨n, rfl⟩ | ⟨q, rfl⟩ <;> rcases h2 with ⟨m, rfl⟩ | ⟨p, rfl⟩ <;>
    simp [compare_values, Value.isna, Value.isNumeric, round2_eq_iff]

theorem compare_values_numeric_round_witness :
    ((∃ n, Value.int 1 = Value.int n) ∨ (∃ q, Value.int 1 = Value.float q)) ∧
    (compare_values (.int 1) (.float (mkRat 1004 1000)) = true ↔
      round2 (Value.int 1).toFloat = round2 (Value.float (mkRat 1004 1000)).toFloat) :=
  ⟨Or.inl ⟨1, rfl⟩,
   compare_values_numeric_round _ _ (Or.inl ⟨1, rfl⟩) (Or.inr ⟨_, rfl⟩)⟩

/-! ### C3: mixed-type comparison -/

/-- C3 counterexample: a boolean compared with a number IS resolved
through the numeric rounding rule (Python `bool` is a subclass of `int`):
`True` vs `1.004` compare as a match although the two values are neither
strictly equal nor even `==`-equal in Python. -/
theorem compare_values_bool_not_strict :
    compare_values (.bool true) (.float (mkRat 1004 1000)) = true ∧
    pyEq (.bool true) (.float (mkRat 1004 1000)) = false ∧
    Value.bool true ≠ Value.float (mkRat 1004 1000) := by decide

/-- C3 amended: pairs of non-null values that are neither both numeric
nor both text fall back to strict equality (same kind and payload), but
booleans count as numeric — a boolean compared with a number is resolved
through the 2-decimal rounding rule. -/
theorem compare_values_mixed_amended :
    (∀ v1 v2 : Value, v1.isna = false → v2.isna = false →
      ¬(v1.isNumeric = true ∧ v2.isNumeric = true) →
      ¬(v1.isStr = true ∧ v2.isStr = true) →
      compare_values v1 v2 = decide (v1 = v2)) ∧
    (∀ (b : Bool) (v : Value), v.isNumeric = true →
      compare_values (.bool b) v =
        decide (roundHundredths (Value.bool b).toFloat = roundHundredths v.toFloat)) := by
  constructor
  · intro v1 v2 h1 h2 hn hs
    cases v1 <;> cases v2 <;>
      simp_all [compare_values, pyEq, Value.isna, Value.isNumeric, Value.isStr, Value.toNum?]
  · intro b v hv
    cases v <;> simp_all [compare_values, Value.isna, Value.isNumeric]

theorem compare_values_mixed_amended_witness :
    compare_values (.str "7") (.int 7) = decide (Value.str "7" = Value.int 7) ∧
    compare_values (.bool true) (.int 1) =
      decide (roundHundredths (Value.bool true).toFloat =
        roundHundredths (Value.int 1).toFloat) :=
  ⟨compare_values_mixed_amended.1 _ _ rfl rfl (by decide) (by decide),
   compare_values_mixed_amended.2 true (.int 1) rfl⟩

/-! ### C4: identifier normalisation and the join key -/

/-- C4 counterexample: the integer id `1` stringifies to `"1"` while the
float id `1.0` stringifies to `"1.0"`, so reconcile does NOT treat them
as the same entity: the two one-row datasets produce no common record and
each row lands in an Unmatched Set. -/
theorem id_numeric_type_counterexample :
    ((compare_files ⟨["id"], [[.int 1]]⟩ ⟨["id"], [[.float 1]]⟩
        ⟨("id", "id"), []⟩ "t").1.map
      (fun o => (o.summary.commonRecords, o.summary.onlyInFile1,
                 o.summary.onlyInFile2))) = .ok (0, 1, 1) := by decide

set_option maxRecDepth 8192 in
/-- C4 amended: two identifier values are the same entity exactly when
their normalised forms (`astype(str)` then `strip`) coincide; ids
differing only by surrounding whitespace therefore join as a common
record, but ids differing by underlying numeric type (int `1` → `"1"`,
float `1.0` → `"1.0"`) do not. -/
theorem id_join_key_amended (v1 v2 : Value) (t : String) :
    (compare_files ⟨["id"], [[v1]]⟩ ⟨["id"], [[v2]]⟩ ⟨("id", "id"), []⟩ t).1.map
      (fun o => (o.summary.commonRecords, o.summary.onlyInFile1,
                 o.summary.onlyInFile2))
      = .ok (if normCell v1 = normCell v2 then (1, 0, 0) else (0, 1, 1)) := by
  by_cases h : normCell v1 = normCell v2
  · have h2 : normCell v2 = normCell v1 := h.symm
    simp [compare_files, normalizeIdCol, buildOutput, colIdx, rowCell, DF.getCol,
      filterNotIn, renameCols, mergeRows, processPairs, andFold, comparisonCols,
      comparisonRows, sortByFlag, mergedDF, mkOutput, h2, Except.map]
  · have h2 : ¬(normCell v2 = normCell v1) := fun e => h e.symm
    simp [compare_files, normalizeIdCol, buildOutput, colIdx, rowCell, DF.getCol,
      filterNotIn, renameCols, mergeRows, processPairs, andFold, comparisonCols,
      comparisonRows, sortByFlag, mergedDF, mkOutput, h, h2, Except.map]

/-- C4 subcase witness: whitespace-only differences are the same entity:
`" 1"` and `"1"` join as one common record. -/
theorem id_whitespace_same_entity :
    (compare_files ⟨["id"], [[.str " 1"]]⟩ ⟨["id"], [[.str "1"]]⟩
        ⟨("id", "id"), []⟩ "t").1.map
      (fun o => (o.summary.commonRecords, o.summary.onlyInFile1,
                 o.summary.onlyInFile2)) = .ok (1, 0, 0) := by decide

/-! ### Engine machinery lemmas -/

/-- The last cell of every row of a dataframe; for the comparison
dataframe this is its `all_columns_match` column, which is built as the
final entry of every row. -/
def lastCells (df : DF) : List (Option Value) :=
  df.rows.map (fun r => r.getLast?)

theorem getCol_length (df : DF) (c : String) :
    (df.getCol c).length = df.rows.length := by
  simp [DF.getCol]

theorem compare_files_ok_iff (df1 df2 : DF) (m : ColumnMapping) (t : String)
    (o : CompareOutput) :
    (compare_files df1 df2 m t).1 = .ok o ↔
      ∃ d1 d2, normalizeIdCol df1 m.idPair.1 = .ok d1 ∧
        normalizeIdCol df2 m.idPair.2 = .ok d2 ∧
        buildOutput d1 d2 m t = .ok o := by
  unfold compare_files
  cases ha : normalizeIdCol df1 m.idPair.1 with
  | error e => simp [ha]
  | ok d1 =>
    cases hb : normalizeIdCol df2 m.idPair.2 with
    | error e => simp [ha, hb]
    | ok d2 => simp [ha, hb]

theorem compare_files_frames_of_ok (df1 df2 : DF) (m : ColumnMapping) (t : String)
    (d1 d2 : DF)
    (h1 : normalizeIdCol df1 m.idPair.1 = .ok d1)
    (h2 : normalizeIdCol df2 m.idPair.2 = .ok d2) :
    (compare_files df1 df2 m t).2 = (d1, d2) := by
  unfold compare_files
  rw [h1, h2]

theorem buildOutput_ok_iff (d1 d2 : DF) (m : ColumnMapping) (t : String)
    (o : CompareOutput) :
    buildOutput d1 d2 m t = .ok o ↔
      ∃ ps, processPairs (mergedDF d1 d2 m) m.pairs = .ok ps ∧
        o = mkOutput d1 d2 m t ps := by
  unfold buildOutput
  cases hp : processPairs (mergedDF d1 d2 m) m.pairs with
  | error e => simp [hp]
  | ok ps => simp [hp, eq_comm]

theorem processPairs_ok_lengths (merged : DF) (l : List (String × String × String)) :
    ∀ (ps : List PairData), processPairs merged l = .ok ps →
      ∀ p ∈ ps, p.vals1.length = merged.rows.length ∧
        p.vals2.length = merged.rows.length ∧
        p.matchVec.length = merged.rows.length := by
  induction l with
  | nil =>
    intro ps h p hp
    simp only [processPairs, Except.ok.injEq] at h
    subst h
    simp at hp
  | cons hd tl ih =>
    intro ps h p hp
    obtain ⟨n, c1, c2⟩ := hd
    simp only [processPairs] at h
    split at h
    · exact ih ps h p hp
    · split at h
      · split at h
        · cases hrec : processPairs merged tl with
          | error e => rw [hrec] at h; simp at h
          | ok ps' =>
            rw [hrec] at h
            simp only [Except.ok.injEq] at h
            subst h
            rcases List.mem_cons.mp hp with rfl | hmem
            · refine ⟨?_, ?_, ?_⟩ <;>
                simp [DF.getCol, List.length_zipWith]
            · exact ih ps' hrec p hmem
        · simp at h
      · simp at h

theorem andFold_aux_length (ps : List PairData) (n : ℕ)
    (h : ∀ p ∈ ps, p.matchVec.length = n) :
    ∀ acc : List Bool, acc.length = n →
      (ps.foldl (fun acc p => List.zipWith and acc p.matchVec) acc).length = n := by
  induction ps with
  | nil => intro acc ha; simpa using ha
  | cons p ps ih =>
    intro acc ha
    simp only [List.foldl_cons]
    refine ih (fun q hq => h q (by simp [hq])) _ ?_
    simp [List.length_zipWith, ha, h p (by simp)]

theorem andFold_length (n : ℕ) (ps : List PairData)
    (h : ∀ p ∈ ps, p.matchVec.length = n) : (andFold n ps).length = n :=
  andFold_aux_length ps n h _ (List.length_replicate n true)

theorem comparisonRows_length (idVals : List Value) (ps : List PairData)
    (allm : List Bool) :
    (comparisonRows idVals ps allm).length = idVals.length := by
  simp [comparisonRows]

theorem comparisonRows_getLast (idVals : List Value) (ps : List PairData)
    (allm : List Bool) (i : ℕ) (hi : i < idVals.length) :
    ((comparisonRows idVals ps allm).get ⟨i, by simpa [comparisonRows_length]⟩).getLast?
      = some (.bool (allm.getD i true)) := by
  simp only [comparisonRows, List.get_eq_getElem, List.getElem_map, List.getElem_range]
  rw [← List.cons_append, List.getLast?_concat]

/-- The per-row overall flags of the sorted comparison rows: all the
`true` rows first, then all the `false` rows. -/
theorem sortByFlag_shape (idVals : List Value) (ps : List PairData)
    (allm : List Bool) (hlen : allm.length = idVals.length) :
    ∃ a b, (sortByFlag (comparisonRows idVals ps allm) allm).map
        (fun r => r.getLast?)
      = List.replicate a (some (Value.bool true)) ++
        List.replicate b (some (Value.bool false)) := by
  set rows := comparisonRows idVals ps allm with hrows
  have hrl : rows.length = idVals.length := comparisonRows_length _ _ _
  have key : ∀ rf ∈ rows.zip allm, rf.1.getLast? = some (Value.bool rf.2) := by
    intro rf hrf
    obtain ⟨i, hi, hget⟩ := List.getElem_of_mem hrf
    have hii : i < idVals.length := by
      rw [List.length_zip, hrl, hlen] at hi
      simpa using Nat.lt_of_lt_of_le hi (Nat.min_le_left _ _)
    rw [List.getElem_zip] at hget
    have h1 : rf.1 = rows[i] := by rw [← hget]
    have h2 : rf.2 = allm[i] := by rw [← hget]
    have hgl := comparisonRows_getLast idVals ps allm i hii
    rw [List.getD_eq_getElem allm true (by rw [hlen]; exact hii)] at hgl
    rw [h1, h2]
    simpa [List.get_eq_getElem] using hgl
  refine ⟨((rows.zip allm).filter (fun rf => rf.2)).length,
          ((rows.zip allm).filter (fun rf => !rf.2)).length, ?_⟩
  unfold sortByFlag
  rw [List.map_append]
  congr 1
  · rw [List.eq_replicate_iff]
    refine ⟨by simp, ?_⟩
    intro x hx
    simp only [List.map_map, List.mem_map, Function.comp] at hx
    obtain ⟨rf, hrf, rfl⟩ := hx
    obtain ⟨hmem, hflag⟩ := List.mem_filter.mp hrf
    rw [key rf hmem, show rf.2 = true from hflag]
  · rw [List.eq_replicate_iff]
    refine ⟨by simp, ?_⟩
    intro x hx
    simp only [List.map_map, List.mem_map, Function.comp] at hx
    obtain ⟨rf, hrf, rfl⟩ := hx
    obtain ⟨hmem, hflag⟩ := List.mem_filter.mp hrf
    rw [key rf hmem, show rf.2 = false from by simpa using hflag]

/-- The claim's recommended order for the flag column: ascending, i.e.
never a `true` flag immediately before a `false` flag. -/
def flagsAscending (l : List Value) : Prop :=
  List.Chain' (fun a b => ¬(a = Value.bool true ∧ b = Value.bool false)) l

/-- C2 counterexample: on a two-row input with one matching and one
mismatching record, the comparison dataframe lists the matching row
first — the flag column is `[true, false]`, which is not ascending
(the code sorts with `ascending=False`). -/
theorem comparison_sort_counterexample :
    ((compare_files ⟨["id", "v"], [[.str "a", .int 1], [.str "b", .int 1]]⟩
        ⟨["id", "v"], [[.str "a", .int 1], [.str "b", .int 2]]⟩
        ⟨("id", "id"), [("v", "v", "v")]⟩ "t").1.map
      (fun o => o.comparison_df.getCol "all_columns_match"))
      = .ok [.bool true, .bool false] ∧
    ¬ flagsAscending [.bool true, .bool false] := by
  constructor
  · decide
  · intro h
    exact (List.chain'_cons.mp h).1 ⟨rfl, rfl⟩

/-- C2 amended: the Comparison Records are sorted by the overall match
flag in DESCENDING order (`sort_values(..., ascending=False)`): the rows
whose `all_columns_match` cell (the last cell of each row) is `true` come
first, followed by the rows where it is `false`. -/
theorem comparison_df_sorted_descending (df1 df2 : DF) (m : ColumnMapping)
    (t : String) (hok : ∃ o, (compare_files df1 df2 m t).1 = .ok o) :
    ∃ a b, (compare_files df1 df2 m t).1.map (fun o => lastCells o.comparison_df)
      = .ok (List.replicate a (some (Value.bool true)) ++
             List.replicate b (some (Value.bool false))) := by
  obtain ⟨o, ho⟩ := hok
  obtain ⟨d1, d2, h1, h2, hb⟩ := (compare_files_ok_iff _ _ _ _ _).mp ho
  obtain ⟨ps, hps, rfl⟩ := (buildOutput_ok_iff _ _ _ _ _).mp hb
  rw [ho]
  have hml : (andFold (mergedDF d1 d2 m).rows.length ps).length
      = ((mergedDF d1 d2 m).getCol (m.idPair.1 ++ "_file1")).length := by
    rw [getCol_length]
    exact andFold_length _ _ (fun p hp => (processPairs_ok_lengths _ _ _ hps p hp).2.2)
  obtain ⟨a, b, hab⟩ := sortByFlag_shape _ ps _ hml
  refine ⟨a, b, ?_⟩
  simp only [Except.map]
  exact congrArg Except.ok hab

theorem comparison_df_sorted_descending_witness :
    ∃ a b, (compare_files ⟨["id", "v"], [[.str "a", .int 1], [.str "b", .int 1]]⟩
        ⟨["id", "v"], [[.str "a", .int 1], [.str "b", .int 2]]⟩
        ⟨("id", "id"), [("v", "v", "v")]⟩ "t").1.map
          (fun o => lastCells o.comparison_df)
      = .ok (List.replicate a (some (Value.bool true)) ++
             List.replicate b (some (Value.bool false))) :=
  comparison_df_sorted_descending _ _ _ _ ⟨_, rfl⟩

theorem sortByFlag_all_true (rows : List (List Value)) (flags : List Bool)
    (hlen : rows.length = flags.length) (hall : ∀ f ∈ flags, f = true) :
    sortByFlag rows flags = rows := by
  unfold sortByFlag
  have h1 : (rows.zip flags).filter (fun rf => rf.2) = rows.zip flags := by
    rw [List.filter_eq_self]
    rintro ⟨x, y⟩ hrf
    exact hall y (List.of_mem_zip hrf).2
  have h2 : (rows.zip flags).filter (fun rf => !rf.2) = [] := by
    rw [List.filter_eq_nil_iff]
    rintro ⟨x, y⟩ hrf
    simp [hall y (List.of_mem_zip hrf).2]
  rw [h1, h2, List.map_fst_zip _ _ (le_of_eq hlen), List.map_nil, List.append_nil]

/-- C10: with a column mapping holding only the identifier pair (zero
comparison pairs), reconcile succeeds and reports every common record as
matching: every row's `all_columns_match` cell is `true`, the matching
count equals the common count and the mismatched count is zero. -/
theorem zero_pairs_all_match (df1 df2 : DF) (i1 i2 : String) (t : String)
    (hok : ∃ o, (compare_files df1 df2 ⟨(i1, i2), []⟩ t).1 = .ok o) :
    ∃ k, (compare_files df1 df2 ⟨(i1, i2), []⟩ t).1.map
      (fun o => (lastCells o.comparison_df, o.summary.matchingRecords,
                 o.summary.mismatchedRecords, o.summary.commonRecords))
      = .ok (List.replicate k (some (Value.bool true)), k, 0, k) := by
  obtain ⟨o, ho⟩ := hok
  obtain ⟨d1, d2, h1, h2, hb⟩ := (compare_files_ok_iff _ _ _ _ _).mp ho
  obtain ⟨ps, hps, rfl⟩ := (buildOutput_ok_iff _ _ _ _ _).mp hb
  have hps0 : ps = [] := by
    simp only [processPairs, Except.ok.injEq] at hps
    exact hps.symm
  subst hps0
  rw [ho]
  set merged := mergedDF d1 d2 ⟨(i1, i2), []⟩ with hm
  set n := merged.rows.length with hn
  set idVals := merged.getCol (i1 ++ "_file1") with hiv
  have hidlen : idVals.length = n := getCol_length _ _
  have handf : andFold n ([] : List PairData) = List.replicate n true := rfl
  have hsort : sortByFlag (comparisonRows idVals [] (List.replicate n true))
      (List.replicate n true) = comparisonRows idVals [] (List.replicate n true) := by
    refine sortByFlag_all_true _ _ ?_ (fun f hf => List.eq_of_mem_replicate hf)
    simp [comparisonRows_length, hidlen]
  have hlast : (comparisonRows idVals [] (List.replicate n true)).map
      (fun r => r.getLast?) = List.replicate n (some (Value.bool true)) := by
    rw [List.eq_replicate_iff]
    constructor
    · simp [comparisonRows_length, hidlen]
    · intro x hx
      simp only [List.mem_map] at hx
      obtain ⟨r, hr, rfl⟩ := hx
      obtain ⟨i, hi, rfl⟩ := List.getElem_of_mem hr
      have hii : i < idVals.length := by
        simpa [comparisonRows_length] using hi
      have hgl := comparisonRows_getLast idVals [] (List.replicate n true) i hii
      simp only [List.get_eq_getElem] at hgl
      rw [hgl]
      have : (List.replicate n true).getD i true = true := by
        simp only [List.getD, List.get?_eq_getElem?, List.getElem?_replicate]
        split <;> rfl
      rw [this]
  refine ⟨n, ?_⟩
  simp only [Except.map]
  simp only [mkOutput, lastCells, handf, hsort, hlast]
  simp [List.count_replicate_self, Nat.sub_self]

theorem zero_pairs_all_match_witness :
    ∃ k, (compare_files ⟨["id"], [[.str "a"]]⟩ ⟨["id"], [[.str "a"]]⟩
        ⟨("id", "id"), []⟩ "t").1.map
      (fun o => (lastCells o.comparison_df, o.summary.matchingRecords,
                 o.summary.mismatchedRecords, o.summary.commonRecords))
      = .ok (List.replicate k (some (Value.bool true)), k, 0, k) :=
  zero_pairs_all_match _ _ _ _ _ ⟨_, rfl⟩

/-! ### C9: the only mutation is identifier normalisation -/

theorem colIdx_spec (cols : List String) (c : String) (j : ℕ)
    (h : colIdx cols c = some j) : ∃ hj : j < cols.length, cols[j] = c := by
  obtain ⟨hj, hp, -⟩ := List.findIdx?_eq_some_iff_getElem.mp (by simpa [colIdx] using h)
  exact ⟨hj, by simpa using hp⟩

theorem colIdx_mem (cols : List String) (c : String) (hc : c ∈ cols) :
    ∃ j, colIdx cols c = some j := by
  cases hj : colIdx cols c with
  | some j => exact ⟨j, rfl⟩
  | none =>
    exfalso
    have hall : ∀ x ∈ cols, ¬x = c := by simpa [colIdx] using hj
    exact hall c hc rfl

theorem normalizeIdCol_frame (df : DF) (c0 : String) (d : DF)
    (w : df.WF) (h : normalizeIdCol df c0 = .ok d) :
    d.cols = df.cols ∧ d.rows.length = df.rows.length ∧
    d.getCol c0 = (df.getCol c0).map normCell ∧
    ∀ c ∈ df.cols, c ≠ c0 → d.getCol c = df.getCol c := by
  unfold normalizeIdCol at h
  cases hj : colIdx df.cols c0 with
  | none => rw [hj] at h; simp at h
  | some j =>
    rw [hj] at h
    simp only [Except.ok.injEq] at h
    subst h
    obtain ⟨hjlt, hcj⟩ := colIdx_spec df.cols c0 j hj
    refine ⟨rfl, by simp, ?_, ?_⟩
    · simp only [DF.getCol, List.map_map]
      refine List.map_congr_left ?_
      intro r hr
      have hjr : j < r.length := by rw [w r hr]; exact hjlt
      simp only [Function.comp_apply, rowCell, hj]
      rw [List.get?_eq_getElem?, List.get?_eq_getElem?, List.getElem?_set_self hjr]
      rfl
    · intro c hc hne
      obtain ⟨j', hj'⟩ := colIdx_mem df.cols c hc
      obtain ⟨hj'lt, hcj'⟩ := colIdx_spec df.cols c j' hj'
      have hjj : j ≠ j' := by
        intro e
        subst e
        exact hne (hcj'.symm.trans hcj)
      simp only [DF.getCol, List.map_map]
      refine List.map_congr_left ?_
      intro r hr
      simp only [Function.comp_apply, rowCell, hj']
      simp only [List.get?_eq_getElem?]
      rw [List.getElem?_set_ne hjj]

/-- C9: on every input on which reconcile succeeds, the only mutation it
performs on the two caller-owned dataframes is the normalisation (cast to
text, trim whitespace) of the designated identifier columns: column
labels and row counts are unchanged, the identifier column of each frame
afterwards holds `normCell` of its previous values, and every other
column of both frames is unchanged. -/
theorem mutation_only_id_normalisation (df1 df2 : DF) (m : ColumnMapping)
    (t : String) (w1 : df1.WF) (w2 : df2.WF)
    (hok : ∃ o, (compare_files df1 df2 m t).1 = .ok o) :
    ((compare_files df1 df2 m t).2.1.cols = df1.cols ∧
     (compare_files df1 df2 m t).2.1.rows.length = df1.rows.length ∧
     (compare_files df1 df2 m t).2.1.getCol m.idPair.1
        = (df1.getCol m.idPair.1).map normCell ∧
     ∀ c ∈ df1.cols, c ≠ m.idPair.1 →
        (compare_files df1 df2 m t).2.1.getCol c = df1.getCol c) ∧
    ((compare_files df1 df2 m t).2.2.cols = df2.cols ∧
     (compare_files df1 df2 m t).2.2.rows.length = df2.rows.length ∧
     (compare_files df1 df2 m t).2.2.getCol m.idPair.2
        = (df2.getCol m.idPair.2).map normCell ∧
     ∀ c ∈ df2.cols, c ≠ m.idPair.2 →
        (compare_files df1 df2 m t).2.2.getCol c = df2.getCol c) := by
  obtain ⟨o, ho⟩ := hok
  obtain ⟨d1, d2, h1, h2, -⟩ := (compare_files_ok_iff _ _ _ _ _).mp ho
  have hfr := compare_files_frames_of_ok df1 df2 m t d1 d2 h1 h2
  have e1 : (compare_files df1 df2 m t).2.1 = d1 := by rw [hfr]
  have e2 : (compare_files df1 df2 m t).2.2 = d2 := by rw [hfr]
  rw [e1, e2]
  exact ⟨normalizeIdCol_frame df1 m.idPair.1 d1 w1 h1,
         normalizeIdCol_frame df2 m.idPair.2 d2 w2 h2⟩

theorem mutation_only_id_normalisation_witness :
    (compare_files ⟨["id", "v"], [[.str " a", .int 5]]⟩
        ⟨["id", "v"], [[.str "a", .int 6]]⟩ ⟨("id", "id"), []⟩ "t").2.1.getCol "id"
      = ((⟨["id", "v"], [[.str " a", .int 5]]⟩ : DF).getCol "id").map normCell ∧
    (compare_files ⟨["id", "v"], [[.str " a", .int 5]]⟩
        ⟨["id", "v"], [[.str "a", .int 6]]⟩ ⟨("id", "id"), []⟩ "t").2.1.getCol "v"
      = (⟨["id", "v"], [[.str " a", .int 5]]⟩ : DF).getCol "v" :=
  have h := mutation_only_id_normalisation
    ⟨["id", "v"], [[.str " a", .int 5]]⟩ ⟨["id", "v"], [[.str "a", .int 6]]⟩
    ⟨("id", "id"), []⟩ "t" (by unfold DF.WF; decide) (by unfold DF.WF; decide) ⟨_, rfl⟩
  ⟨h.1.2.2.1, h.1.2.2.2 "v" (by decide) (by decide)⟩

/-! ### C5: idempotence of reconcile under in-place mutation -/

theorem normalizeIdCol_idem (df : DF) (c : String) (d : DF)
    (h : normalizeIdCol df c = .ok d) : normalizeIdCol d c = .ok d := by
  unfold normalizeIdCol at h ⊢
  cases hj : colIdx df.cols c with
  | none => rw [hj] at h; simp at h
  | some j =>
    rw [hj] at h
    simp only [Except.ok.injEq] at h
    subst h
    simp only [hj, Except.ok.injEq]
    congr 1
    rw [List.map_map]
    refine List.map_congr_left ?_
    intro r hr
    simp only [Function.comp_apply]
    by_cases hjr : j < r.length
    · simp only [List.get?_eq_getElem?]
      rw [List.getElem?_set_self (by simpa using hjr)]
      simp only [Option.getD_some]
      rw [normCell_idem, List.set_set]
    · simp only [List.set_eq_of_length_le (le_of_not_lt hjr)]

/-- C5: after a successful call, calling `compare_files` again on the
(in-place mutated) dataframes it returned, with the same mapping, yields
identical Comparison Records, identical Unmatched Sets, and an identical
Summary except for the elapsed-time entry, which is still present and
holds the second call's elapsed string; the frames are not mutated
further. -/
theorem reconcile_idempotent (df1 df2 : DF) (m : ColumnMapping) (t1 t2 : String)
    (hok : ∃ o, (compare_files df1 df2 m t1).1 = .ok o) :
    ∃ o1 o2,
      (compare_files df1 df2 m t1).1 = .ok o1 ∧
      (compare_files (compare_files df1 df2 m t1).2.1
          (compare_files df1 df2 m t1).2.2 m t2).1 = .ok o2 ∧
      o2.comparison_df = o1.comparison_df ∧
      o2.not_in_file1 = o1.not_in_file1 ∧
      o2.not_in_file2 = o1.not_in_file2 ∧
      o2.summary = { o1.summary with timeTaken := t2 } ∧
      (compare_files (compare_files df1 df2 m t1).2.1
          (compare_files df1 df2 m t1).2.2 m t2).2
        = (compare_files df1 df2 m t1).2 := by
  obtain ⟨o, ho⟩ := hok
  obtain ⟨d1, d2, h1, h2, hb⟩ := (compare_files_ok_iff _ _ _ _ _).mp ho
  obtain ⟨ps, hps, rfl⟩ := (buildOutput_ok_iff _ _ _ _ _).mp hb
  have hfr := compare_files_frames_of_ok df1 df2 m t1 d1 d2 h1 h2
  have e1 : (compare_files df1 df2 m t1).2.1 = d1 := by rw [hfr]
  have e2 : (compare_files df1 df2 m t1).2.2 = d2 := by rw [hfr]
  have h1i := normalizeIdCol_idem df1 m.idPair.1 d1 h1
  have h2i := normalizeIdCol_idem df2 m.idPair.2 d2 h2
  have hc2 : compare_files d1 d2 m t2 = (buildOutput d1 d2 m t2, d1, d2) := by
    unfold compare_files
    rw [h1i, h2i]
  have hb2 : buildOutput d1 d2 m t2 = .ok (mkOutput d1 d2 m t2 ps) := by
    unfold buildOutput
    rw [hps]
  refine ⟨mkOutput d1 d2 m t1 ps, mkOutput d1 d2 m t2 ps, ho, ?_, rfl, rfl, rfl, rfl, ?_⟩
  · rw [e1, e2, hc2]
    exact hb2
  · rw [e1, e2, hc2, hfr]

theorem reconcile_idempotent_witness :
    ∃ o1 o2,
      (compare_files ⟨["id"], [[.str " a"]]⟩ ⟨["id"], [[.str "a"]]⟩
          ⟨("id", "id"), []⟩ "t1").1 = .ok o1 ∧
      (compare_files
          (compare_files ⟨["id"], [[.str " a"]]⟩ ⟨["id"], [[.str "a"]]⟩
            ⟨("id", "id"), []⟩ "t1").2.1
          (compare_files ⟨["id"], [[.str " a"]]⟩ ⟨["id"], [[.str "a"]]⟩
            ⟨("id", "id"), []⟩ "t1").2.2 ⟨("id", "id"), []⟩ "t2").1 = .ok o2 ∧
      o2.comparison_df = o1.comparison_df ∧
      o2.not_in_file1 = o1.not_in_file1 ∧
      o2.not_in_file2 = o1.not_in_file2 ∧
      o2.summary = { o1.summary with timeTaken := "t2" } ∧
      (compare_files
          (compare_files ⟨["id"], [[.str " a"]]⟩ ⟨["id"], [[.str "a"]]⟩
            ⟨("id", "id"), []⟩ "t1").2.1
          (compare_files ⟨["id"], [[.str " a"]]⟩ ⟨["id"], [[.str "a"]]⟩
            ⟨("id", "id"), []⟩ "t1").2.2 ⟨("id", "id"), []⟩ "t2").2
        = (compare_files ⟨["id"], [[.str " a"]]⟩ ⟨["id"], [[.str "a"]]⟩
            ⟨("id", "id"), []⟩ "t1").2 :=
  reconcile_idempotent _ _ _ _ _ ⟨_, rfl⟩

/-! ### C8: join size with unique identifiers -/

theorem string_append_right_cancel {a b s : String} (h : a ++ s = b ++ s) :
    a = b := by
  apply String.ext
  have hd : a.data ++ s.data = b.data ++ s.data := by
    rw [← String.data_append, ← String.data_append, h]
  exact (List.append_inj' hd rfl).1

theorem colIdx_map_append (cols : List String) (c s : String) :
    colIdx (cols.map (fun x => x ++ s)) (c ++ s) = colIdx cols c := by
  unfold colIdx
  rw [List.findIdx?_map]
  congr 1
  funext x
  simp only [Function.comp_apply]
  rw [Bool.eq_iff_iff]
  simp only [beq_iff_eq]
  exact ⟨fun e => string_append_right_cancel e, fun e => by rw [e]⟩

theorem rowCell_rename (cols : List String) (c s : String) (r : List Value) :
    rowCell (cols.map (fun x => x ++ s)) (c ++ s) r = rowCell cols c r := by
  unfold rowCell
  rw [colIdx_map_append]

theorem filter_key_length (l2 : List (List Value)) (k2 : List Value → Value)
    (a : Value) (hnd : (l2.map k2).Nodup) :
    (l2.filter (fun r2 => decide (k2 r2 = a))).length
      = if a ∈ l2.map k2 then 1 else 0 := by
  induction l2 with
  | nil => simp
  | cons r l2 ih =>
    simp only [List.map_cons, List.nodup_cons] at hnd
    obtain ⟨hnotin, hnd2⟩ := hnd
    by_cases h : k2 r = a
    · subst h
      rw [List.filter_cons_of_pos (by simp)]
      have hzero : (l2.filter (fun r2 => decide (k2 r2 = k2 r))).length = 0 := by
        rw [List.length_eq_zero, List.filter_eq_nil_iff]
        intro x hx
        simp only [decide_eq_true_eq]
        intro he
        exact hnotin (he ▸ List.mem_map_of_mem k2 hx)
      simp [hzero]
    · rw [List.filter_cons_of_neg (by simpa)]
      rw [ih hnd2]
      simp [List.mem_cons, show ¬a = k2 r from fun e => h e.symm]

theorem flatMap_filter_length (l1 l2 : List (List Value))
    (k1 k2 : List Value → Value) (hnd2 : (l2.map k2).Nodup) :
    (l1.flatMap (fun r1 => (l2.filter (fun r2 => decide (k2 r2 = k1 r1))).map
        (fun r2 => r1 ++ r2))).length
      = ((l1.map k1).filter (fun a => decide (a ∈ l2.map k2))).length := by
  induction l1 with
  | nil => simp
  | cons r1 l1 ih =>
    rw [List.flatMap_cons, List.length_append, List.length_map,
      filter_key_length l2 k2 (k1 r1) hnd2, ih, List.map_cons]
    by_cases h : k1 r1 ∈ l2.map k2
    · rw [if_pos h, List.filter_cons_of_pos (by simp only [decide_eq_true_eq]; exact h),
        List.length_cons]
      omega
    · rw [if_neg h, List.filter_cons_of_neg (by simp only [decide_eq_true_eq]; exact h)]
      omega

theorem filter_mem_length_eq_card (L1 L2 : List Value) (hnd : L1.Nodup) :
    (L1.filter (fun a => decide (a ∈ L2))).length
      = (L1.toFinset ∩ L2.toFinset).card := by
  rw [← List.toFinset_card_of_nodup (hnd.filter _)]
  congr 1
  rw [List.toFinset_filter]
  ext x
  simp [Finset.mem_filter, Finset.mem_inter, List.mem_toFinset]

/-- C8: when the normalised identifier values are unique within each
dataset, the `Common records` count (the number of joined records) equals
the cardinality of the intersection of the two sets of normalised
identifier values. -/
theorem join_size_unique_ids (df1 df2 : DF) (i1 i2 : String)
    (ps : List (String × String × String)) (t : String) (d1 d2 : DF)
    (h1 : normalizeIdCol df1 i1 = .ok d1) (h2 : normalizeIdCol df2 i2 = .ok d2)
    (hu1 : (d1.getCol i1).Nodup) (hu2 : (d2.getCol i2).Nodup)
    (hok : ∃ o, (compare_files df1 df2 ⟨(i1, i2), ps⟩ t).1 = .ok o) :
    (compare_files df1 df2 ⟨(i1, i2), ps⟩ t).1.map
        (fun o => o.summary.commonRecords)
      = .ok (((d1.getCol i1).toFinset ∩ (d2.getCol i2).toFinset).card) := by
  obtain ⟨o, ho⟩ := hok
  obtain ⟨d1', d2', h1', h2', hb⟩ := (compare_files_ok_iff _ _ _ _ _).mp ho
  have e1 : d1' = d1 := by
    rw [show (⟨(i1, i2), ps⟩ : ColumnMapping).idPair.1 = i1 from rfl, h1] at h1'
    exact ((Except.ok.injEq _ _).mp h1').symm
  have e2 : d2' = d2 := by
    rw [show (⟨(i1, i2), ps⟩ : ColumnMapping).idPair.2 = i2 from rfl, h2] at h2'
    exact ((Except.ok.injEq _ _).mp h2').symm
  subst d1'
  subst d2'
  obtain ⟨ps', hps, rfl⟩ := (buildOutput_ok_iff _ _ _ _ _).mp hb
  rw [ho]
  simp only [Except.map]
  congr 1
  show (mergedDF d1 d2 ⟨(i1, i2), ps⟩).rows.length = _
  have hkey : (mergedDF d1 d2 ⟨(i1, i2), ps⟩).rows
      = d1.rows.flatMap (fun r1 =>
          (d2.rows.filter (fun r2 =>
            decide (rowCell d2.cols i2 r2 = rowCell d1.cols i1 r1))).map
              (fun r2 => r1 ++ r2)) := by
    show mergeRows (renameCols d1 "_file1") (renameCols d2 "_file2")
        (i1 ++ "_file1") (i2 ++ "_file2") = _
    unfold mergeRows renameCols
    simp only [rowCell_rename]
  rw [hkey, flatMap_filter_length d1.rows d2.rows
        (rowCell d1.cols i1) (rowCell d2.cols i2) hu2,
      show List.map (rowCell d1.cols i1) d1.rows = d1.getCol i1 from rfl,
      show List.map (rowCell d2.cols i2) d2.rows = d2.getCol i2 from rfl,
      filter_mem_length_eq_card _ _ hu1]

theorem join_size_unique_ids_witness :
    (compare_files ⟨["id"], [[.str "1"], [.str "2"]]⟩
        ⟨["id"], [[.str "2"], [.str "3"]]⟩ ⟨("id", "id"), []⟩ "t").1.map
      (fun o => o.summary.commonRecords)
      = .ok ((((⟨["id"], [[.str "1"], [.str "2"]]⟩ : DF).getCol "id").toFinset ∩
             ((⟨["id"], [[.str "2"], [.str "3"]]⟩ : DF).getCol "id").toFinset).card) :=
  join_size_unique_ids _ _ _ _ _ _ _ _ rfl rfl (by decide) (by decide) ⟨_, rfl⟩

/-! ### C1: missing comparison-pair column -/

/-- Substring test (Python `in` on strings). -/
def strContains (s sub : String) : Bool := decide (sub.data <:+: s.data)

theorem normalizeIdCol_cols (df : DF) (c : String) (d : DF)
    (h : normalizeIdCol df c = .ok d) : d.cols = df.cols := by
  unfold normalizeIdCol at h
  cases hj : colIdx df.cols c with
  | none => rw [hj] at h; simp at h
  | some j =>
    rw [hj] at h
    simp only [Except.ok.injEq] at h
    subst h
    rfl

set_option maxRecDepth 40000 in
/-- C1 counterexample: with a comparison pair referencing the missing
column `"missing"`, the call aborts with the error message built at
state.py:109-111 — but that message does not list the available columns
(the available column `"zqx"` does not occur in it; the column list is
only printed to stdout), and partial work HAS been performed before the
error: the identifier column of the first caller-owned dataframe has
already been normalised in place (`" 1"` became `"1"`). -/
theorem missing_column_counterexample :
    (compare_files ⟨["id", "zqx"], [[.str " 1", .int 5]]⟩
        ⟨["id", "b"], [[.str "1", .int 6]]⟩
        ⟨("id", "id"), [("p", "missing", "b")]⟩ "t").1
      = .error (missingColMsg "missing" "first") ∧
    strContains (missingColMsg "missing" "first") "zqx" = false ∧
    (compare_files ⟨["id", "zqx"], [[.str " 1", .int 5]]⟩
        ⟨["id", "b"], [[.str "1", .int 6]]⟩
        ⟨("id", "id"), [("p", "missing", "b")]⟩ "t").2.1
      ≠ ⟨["id", "zqx"], [[.str " 1", .int 5]]⟩ := by decide

theorem flatMap_id_of_plain (l : List Char) (f : Char → List Char)
    (h : ∀ ch ∈ l, f ch = [ch]) : l.flatMap f = l := by
  induction l with
  | nil => rfl
  | cons a l ih =>
    rw [List.flatMap_cons, h a (by simp), ih (fun ch hch => h ch (by simp [hch]))]
    rfl

/-- Every `missingColMsg` names its missing column: the column name, in
the escaped form Python `repr` gives its characters, occurs inside the
message. -/
theorem missingColMsg_names_column (c w : String) :
    reprEscapedName (innerColMsg c w) c <:+: (missingColMsg c w).data := by
  have hdec : (innerColMsg c w).data
      = "Column '".data ++ (c.data ++ ("' not found in " ++ w ++ " file").data) := by
    simp [innerColMsg, String.data_append, List.append_assoc]
  have h1 : reprEscapedName (innerColMsg c w) c
      <:+: (keyErrorStr (innerColMsg c w)).data := by
    refine ⟨reprQuote (innerColMsg c w) ::
        "Column '".data.flatMap (reprEscapeChar (reprQuote (innerColMsg c w))),
      ("' not found in " ++ w ++ " file").data.flatMap
        (reprEscapeChar (reprQuote (innerColMsg c w)))
        ++ [reprQuote (innerColMsg c w)], ?_⟩
    rw [show (keyErrorStr (innerColMsg c w)).data
        = reprQuote (innerColMsg c w) ::
            (innerColMsg c w).data.flatMap
              (reprEscapeChar (reprQuote (innerColMsg c w)))
            ++ [reprQuote (innerColMsg c w)] from rfl]
    rw [hdec, List.flatMap_append, List.flatMap_append]
    simp [reprEscapedName, List.append_assoc]
  have h2 : (keyErrorStr (innerColMsg c w)).data <:+: (missingColMsg c w).data := by
    refine ⟨"Column '".data,
            "' not found. Please check your column mapping.".data, ?_⟩
    simp [missingColMsg, String.data_append, List.append_assoc]
  exact h1.trans h2

/-- When the column name has only plain characters (nothing Python
`repr` escapes), it occurs verbatim in the message. -/
theorem missingColMsg_names_plain (c w : String)
    (h : ∀ ch ∈ c.data, reprEscapeChar (reprQuote (innerColMsg c w)) ch = [ch]) :
    c.data <:+: (missingColMsg c w).data := by
  have hg := missingColMsg_names_column c w
  rwa [reprEscapedName, flatMap_id_of_plain _ _ h] at hg

theorem string_append_distinct_suffix {x y s t : String}
    (hne : s ≠ t) (hl : s.data.length = t.data.length) : x ++ s ≠ y ++ t := by
  intro he
  have hdata : x.data ++ s.data = y.data ++ t.data := by
    rw [← String.data_append, ← String.data_append, he]
  exact hne (String.ext (List.append_inj' hdata hl).2)

theorem mem_merged_file1_iff (d1 d2 : DF) (m : ColumnMapping) (c : String) :
    (c ++ "_file1") ∈ (mergedDF d1 d2 m).cols ↔ c ∈ d1.cols := by
  simp only [mergedDF, renameCols, List.mem_append, List.mem_map]
  constructor
  · rintro (⟨x, hx, he⟩ | ⟨x, hx, he⟩)
    · exact string_append_right_cancel he ▸ hx
    · exact absurd he (string_append_distinct_suffix (by decide) (by decide))
  · intro hc
    exact Or.inl ⟨c, hc, rfl⟩

theorem mem_merged_file2_iff (d1 d2 : DF) (m : ColumnMapping) (c : String) :
    (c ++ "_file2") ∈ (mergedDF d1 d2 m).cols ↔ c ∈ d2.cols := by
  simp only [mergedDF, renameCols, List.mem_append, List.mem_map]
  constructor
  · rintro (⟨x, hx, he⟩ | ⟨x, hx, he⟩)
    · exact absurd he (string_append_distinct_suffix (by decide) (by decide))
    · exact string_append_right_cancel he ▸ hx
  · intro hc
    exact Or.inr ⟨c, hc, rfl⟩

/-- The loop aborts at the first faulty pair: pairs before it are either
the skipped `"id"` entry or have both columns present; the faulty pair
(name not `"id"`) yields the first-file message when its left column is
missing, else the second-file message. -/
theorem processPairs_first_bad (merged : DF)
    (good : List (String × String × String)) (n c1 c2 : String)
    (rest : List (String × String × String))
    (hgood : ∀ p ∈ good, p.1 = "id" ∨
      ((p.2.1 ++ "_file1") ∈ merged.cols ∧ (p.2.2 ++ "_file2") ∈ merged.cols))
    (hn : n ≠ "id")
    (hbad : (c1 ++ "_file1") ∉ merged.cols ∨ (c2 ++ "_file2") ∉ merged.cols) :
    processPairs merged (good ++ (n, c1, c2) :: rest)
      = .error (if (c1 ++ "_file1") ∈ merged.cols then missingColMsg c2 "second"
                else missingColMsg c1 "first") := by
  induction good with
  | nil =>
    rw [List.nil_append]
    unfold processPairs
    rw [if_neg hn]
    by_cases hm1 : (c1 ++ "_file1") ∈ merged.cols
    · rw [if_pos hm1, if_pos hm1, if_neg (hbad.resolve_left (not_not_intro hm1))]
    · rw [if_neg hm1, if_neg hm1]
  | cons g good ih =>
    obtain ⟨gn, gc1, gc2⟩ := g
    have hgood' : ∀ p ∈ good, p.1 = "id" ∨
        ((p.2.1 ++ "_file1") ∈ merged.cols ∧ (p.2.2 ++ "_file2") ∈ merged.cols) :=
      fun p hp => hgood p (List.mem_cons_of_mem _ hp)
    rw [List.cons_append]
    unfold processPairs
    by_cases hgn : gn = "id"
    · rw [if_pos hgn]
      exact ih hgood'
    · rcases hgood _ (List.mem_cons_self _ _) with hid | ⟨hm1, hm2⟩
      · exact absurd hid hgn
      · rw [if_neg hgn, if_pos hm1, if_pos hm2, ih hgood']

/-- C1 amended: when some comparison pair references a column absent
from its dataset — on either side, at any position after valid pairs —
`compare_files` aborts at the first such pair with the state.py:109-111
error and returns no Comparison Records: the first-file message for a
missing left column, otherwise the second-file message.  The message
names the missing column (in `repr`-escaped form; verbatim when the name
has only plain characters).  However, the available columns are only
printed, not part of the error, and the call is not fail-fast: the
identifier normalisation of both caller-owned frames has already
happened in place when the error is raised (the mutated frames are
returned). -/
theorem missing_column_amended (df1 df2 : DF) (i1 i2 : String)
    (good : List (String × String × String)) (n c1 c2 : String)
    (rest : List (String × String × String)) (t : String) (d1 d2 : DF)
    (h1 : normalizeIdCol df1 i1 = .ok d1) (h2 : normalizeIdCol df2 i2 = .ok d2)
    (hgood : ∀ p ∈ good, p.1 = "id" ∨ (p.2.1 ∈ df1.cols ∧ p.2.2 ∈ df2.cols))
    (hn : n ≠ "id") (hbad : c1 ∉ df1.cols ∨ c2 ∉ df2.cols) :
    compare_files df1 df2 ⟨(i1, i2), good ++ (n, c1, c2) :: rest⟩ t
      = (.error (if c1 ∈ df1.cols then missingColMsg c2 "second"
                 else missingColMsg c1 "first"), d1, d2) ∧
    reprEscapedName
        (innerColMsg (if c1 ∈ df1.cols then c2 else c1)
          (if c1 ∈ df1.cols then "second" else "first"))
        (if c1 ∈ df1.cols then c2 else c1)
      <:+: (missingColMsg (if c1 ∈ df1.cols then c2 else c1)
          (if c1 ∈ df1.cols then "second" else "first")).data ∧
    ((∀ ch ∈ (if c1 ∈ df1.cols then c2 else c1).data,
        reprEscapeChar (reprQuote (innerColMsg (if c1 ∈ df1.cols then c2 else c1)
          (if c1 ∈ df1.cols then "second" else "first"))) ch = [ch]) →
      (if c1 ∈ df1.cols then c2 else c1).data
        <:+: (missingColMsg (if c1 ∈ df1.cols then c2 else c1)
          (if c1 ∈ df1.cols then "second" else "first")).data) := by
  refine ⟨?_, missingColMsg_names_column _ _,
    fun h => missingColMsg_names_plain _ _ h⟩
  have hc1d : d1.cols = df1.cols := normalizeIdCol_cols df1 i1 d1 h1
  have hc2d : d2.cols = df2.cols := normalizeIdCol_cols df2 i2 d2 h2
  set M : ColumnMapping := ⟨(i1, i2), good ++ (n, c1, c2) :: rest⟩ with hM
  have hgood' : ∀ p ∈ good, p.1 = "id" ∨
      ((p.2.1 ++ "_file1") ∈ (mergedDF d1 d2 M).cols ∧
       (p.2.2 ++ "_file2") ∈ (mergedDF d1 d2 M).cols) := by
    intro p hp
    rcases hgood p hp with h | ⟨ha, hb⟩
    · exact Or.inl h
    · exact Or.inr ⟨(mem_merged_file1_iff _ _ _ _).mpr (by rw [hc1d]; exact ha),
                    (mem_merged_file2_iff _ _ _ _).mpr (by rw [hc2d]; exact hb)⟩
  have hbad' : (c1 ++ "_file1") ∉ (mergedDF d1 d2 M).cols ∨
      (c2 ++ "_file2") ∉ (mergedDF d1 d2 M).cols := by
    rcases hbad with h | h
    · exact Or.inl (fun hk => h (hc1d ▸ (mem_merged_file1_iff _ _ _ _).mp hk))
    · exact Or.inr (fun hk => h (hc2d ▸ (mem_merged_file2_iff _ _ _ _).mp hk))
  have hpp := processPairs_first_bad (mergedDF d1 d2 M) good n c1 c2 rest hgood' hn hbad'
  have hif : (if (c1 ++ "_file1") ∈ (mergedDF d1 d2 M).cols
        then missingColMsg c2 "second" else missingColMsg c1 "first")
      = (if c1 ∈ df1.cols then missingColMsg c2 "second"
         else missingColMsg c1 "first") := by
    by_cases h : c1 ∈ df1.cols
    · rw [if_pos h, if_pos ((mem_merged_file1_iff _ _ _ _).mpr (by rw [hc1d]; exact h))]
    · rw [if_neg h, if_neg (fun hk => h (hc1d ▸ (mem_merged_file1_iff _ _ _ _).mp hk))]
  rw [hif] at hpp
  have hbo : buildOutput d1 d2 M t
      = .error (if c1 ∈ df1.cols then missingColMsg c2 "second"
                else missingColMsg c1 "first") := by
    unfold buildOutput
    rw [show M.pairs = good ++ (n, c1, c2) :: rest from rfl, hpp]
  unfold compare_files
  rw [show M.idPair.1 = i1 from rfl, h1, show M.idPair.2 = i2 from rfl, h2]
  show (buildOutput d1 d2 M t, d1, d2) = _
  rw [hbo]

theorem missing_column_amended_witness :
    (compare_files ⟨["id", "v"], [[.str "1", .int 7]]⟩
        ⟨["id", "v"], [[.str "1", .int 7]]⟩
        ⟨("id", "id"), [("g", "v", "v")] ++ ("p", "v", "missing") :: []⟩ "t"
      = (.error (if "v" ∈ (⟨["id", "v"], [[Value.str "1", Value.int 7]]⟩ : DF).cols
                 then missingColMsg "missing" "second"
                 else missingColMsg "v" "first"),
         ⟨["id", "v"], [[.str "1", .int 7]]⟩,
         ⟨["id", "v"], [[.str "1", .int 7]]⟩) ∧
     reprEscapedName
        (innerColMsg
          (if "v" ∈ (⟨["id", "v"], [[Value.str "1", Value.int 7]]⟩ : DF).cols
           then "missing" else "v")
          (if "v" ∈ (⟨["id", "v"], [[Value.str "1", Value.int 7]]⟩ : DF).cols
           then "second" else "first"))
        (if "v" ∈ (⟨["id", "v"], [[Value.str "1", Value.int 7]]⟩ : DF).cols
         then "missing" else "v")
      <:+: (missingColMsg
          (if "v" ∈ (⟨["id", "v"], [[Value.str "1", Value.int 7]]⟩ : DF).cols
           then "missing" else "v")
          (if "v" ∈ (⟨["id", "v"], [[Value.str "1", Value.int 7]]⟩ : DF).cols
           then "second" else "first")).data ∧
     ((∀ ch ∈ (if "v" ∈ (⟨["id", "v"], [[Value.str "1", Value.int 7]]⟩ : DF).cols
           then "missing" else "v").data,
        reprEscapeChar (reprQuote (innerColMsg
          (if "v" ∈ (⟨["id", "v"], [[Value.str "1", Value.int 7]]⟩ : DF).cols
           then "missing" else "v")
          (if "v" ∈ (⟨["id", "v"], [[Value.str "1", Value.int 7]]⟩ : DF).cols
           then "second" else "first"))) ch = [ch]) →
      (if "v" ∈ (⟨["id", "v"], [[Value.str "1", Value.int 7]]⟩ : DF).cols
       then "missing" else "v").data
        <:+: (missingColMsg
          (if "v" ∈ (⟨["id", "v"], [[Value.str "1", Value.int 7]]⟩ : DF).cols
           then "missing" else "v")
          (if "v" ∈ (⟨["id", "v"], [[Value.str "1", Value.int 7]]⟩ : DF).cols
           then "second" else "first")).data)) ∧
    strContains (missingColMsg "missing" "second") "missing" = true :=
  ⟨missing_column_amended ⟨["id", "v"], [[.str "1", .int 7]]⟩
      ⟨["id", "v"], [[.str "1", .int 7]]⟩ "id" "id"
      [("g", "v", "v")] "p" "v" "missing" [] "t" _ _ rfl rfl
      (by decide) (by decide) (Or.inr (by decide)),
   by decide⟩
